import Mathlib

/-!
Verification development for the `eye-ik` leg controller.

The numeric code under scrutiny works on IEEE `f32`.  We embed it shallowly:

* Arithmetic is idealised to exact real arithmetic (no rounding), but the
  IEEE special-value behaviour that shapes this code's control flow is kept:
  a value is `Option ℝ`, where `none` models NaN.  Divisions by zero and
  `acosf` outside `[-1, 1]` produce `none`; every ordered comparison
  involving `none` is false, exactly as NaN comparisons are in IEEE 754.
  (IEEE division by zero yields `±∞` rather than NaN, but in this program
  every quotient flows directly into `acosf`, which maps `±∞` and NaN alike
  to NaN, so collapsing both to `none` is observationally faithful here.)
* The fixed-point PWM calibration (`FixedU32<U4>` from the `fixed` crate) is
  embedded as raw bit patterns in `ℕ` (value = bits / 16), with the source's
  overflow guards reflected as `Option` guards.
-/

namespace EyeIk

open Classical

/-- Float values: `some x` is a finite value idealised as the real `x`;
`none` models IEEE NaN (and the infinities this program can only feed into
`acosf`, see the module docstring). -/
abbrev F := Option ℝ

def fadd : F → F → F
  | some a, some b => some (a + b)
  | _, _ => none

def fsub : F → F → F
  | some a, some b => some (a - b)
  | _, _ => none

def fmul : F → F → F
  | some a, some b => some (a * b)
  | _, _ => none

/-- Division; a zero denominator yields `none` (see module docstring). -/
noncomputable def fdiv : F → F → F
  | some a, some b => if b = 0 then none else some (a / b)
  | _, _ => none

/-- `libm::sqrtf`: NaN on negative arguments. -/
noncomputable def fsqrt : F → F
  | some a => if a < 0 then none else some (Real.sqrt a)
  | none => none

/-- `libm::acosf`: NaN outside `[-1, 1]`. -/
noncomputable def facos : F → F
  | some a => if a < -1 ∨ 1 < a then none else some (Real.arccos a)
  | none => none

/-- `libm::atan2f(y, x)`, i.e. the argument of the complex number `x + y·i`,
valued in `(-π, π]`.  (IEEE `atan2` is total on finite inputs; `atan2(0,0)=0`,
matching `Complex.arg 0 = 0`.) -/
noncomputable def atan2 (y x : ℝ) : ℝ := Complex.arg ⟨x, y⟩

/-- IEEE `<`: false whenever an operand is NaN. -/
def flt : F → F → Prop
  | some a, some b => a < b
  | _, _ => False

/-- IEEE `>`: false whenever an operand is NaN. -/
def fgt : F → F → Prop
  | some a, some b => b < a
  | _, _ => False

@[simp] theorem fadd_some (a b : ℝ) : fadd (some a) (some b) = some (a + b) := rfl
@[simp] theorem fadd_none_right (a : F) : fadd a none = none := by cases a <;> rfl
@[simp] theorem fadd_none_left (a : F) : fadd none a = none := rfl
@[simp] theorem fsub_some (a b : ℝ) : fsub (some a) (some b) = some (a - b) := rfl
@[simp] theorem fsub_none_left (a : F) : fsub none a = none := rfl
@[simp] theorem fmul_some (a b : ℝ) : fmul (some a) (some b) = some (a * b) := rfl
@[simp] theorem fmul_none_left (a : F) : fmul none a = none := rfl
@[simp] theorem fdiv_some (a b : ℝ) :
    fdiv (some a) (some b) = if b = 0 then none else some (a / b) := rfl
@[simp] theorem fsqrt_some (a : ℝ) :
    fsqrt (some a) = if a < 0 then none else some (Real.sqrt a) := rfl
@[simp] theorem facos_some (a : ℝ) :
    facos (some a) = if a < -1 ∨ 1 < a then none else some (Real.arccos a) := rfl
@[simp] theorem facos_none : facos none = none := rfl
@[simp] theorem flt_some (a b : ℝ) : flt (some a) (some b) = (a < b) := rfl
@[simp] theorem flt_none_left (a : F) : flt none a = False := rfl
@[simp] theorem flt_none_right (a : F) : flt a none = False := by cases a <;> rfl
@[simp] theorem fgt_some (a b : ℝ) : fgt (some a) (some b) = (b < a) := rfl
@[simp] theorem fgt_none_left (a : F) : fgt none a = False := rfl
@[simp] theorem fgt_none_right (a : F) : fgt a none = False := by cases a <;> rfl

namespace ik

/- `src/src/ik.rs` -/

noncomputable def HIP_SERVO_MIN_RADIANS : ℝ := -0.5 * Real.pi

noncomputable def HIP_SERVO_MAX_RADIANS : ℝ := 0.5 * Real.pi

noncomputable def KNEE_SERVO_MIN_RADIANS : ℝ := -0.5 * Real.pi

noncomputable def KNEE_SERVO_MAX_RADIANS : ℝ := 0.5 * Real.pi

structure Leg where
  length_hip_to_knee : ℝ
  length_knee_to_foot : ℝ

structure Cartesian where
  x : ℝ
  y : ℝ

structure Servos where
  hip : F
  knee : F

structure Unreachable where
  length_fully_extended_squared : ℝ
  magnitude_squared : ℝ

inductive ServoOutOfRange
  | hip (radians : F)
  | knee (radians : F)

inductive Error
  | unreachable (u : Unreachable)
  | servoOutOfRange (s : ServoOutOfRange)

def Cartesian.magnitude_squared (self : Cartesian) : ℝ :=
  self.x * self.x + self.y * self.y

def Leg.length_fully_extended (self : Leg) : ℝ :=
  self.length_hip_to_knee + self.length_knee_to_foot

/-- The `theta_hip_internal` binding of `Leg::inverse_kinematics`
(law of cosines at the hip, `ik.rs` lines 79-87). -/
noncomputable def Leg.theta_hip_internal (self : Leg) (v : Cartesian) : F :=
  facos (fdiv
    (some ((self.length_hip_to_knee * self.length_hip_to_knee
        + v.magnitude_squared
        - self.length_knee_to_foot * self.length_knee_to_foot) * 0.5))
    (fmul (some self.length_hip_to_knee) (fsqrt (some v.magnitude_squared))))

/-- The `theta_hip` binding of `Leg::inverse_kinematics`
(`theta_sigma + theta_hip_internal`, `ik.rs` lines 75-93). -/
noncomputable def Leg.theta_hip (self : Leg) (v : Cartesian) : F :=
  fadd (some (atan2 v.y v.x)) (self.theta_hip_internal v)

/-- The `theta_knee_internal` binding of `Leg::inverse_kinematics`
(law of cosines at the knee, `ik.rs` lines 99-105). -/
noncomputable def Leg.theta_knee_internal (self : Leg) (v : Cartesian) : F :=
  facos (fdiv
    (some ((self.length_hip_to_knee * self.length_hip_to_knee
        + self.length_knee_to_foot * self.length_knee_to_foot
        - v.magnitude_squared) * 0.5))
    (some (self.length_hip_to_knee * self.length_knee_to_foot)))

/-- The `theta_knee` binding of `Leg::inverse_kinematics`
(`theta_knee_internal - π/2 + theta_hip`, `ik.rs` line 106). -/
noncomputable def Leg.theta_knee (self : Leg) (v : Cartesian) : F :=
  fadd (fsub (self.theta_knee_internal v) (some (0.5 * Real.pi))) (self.theta_hip v)

/-- `Leg::inverse_kinematics` (`ik.rs` lines 55-126). -/
noncomputable def Leg.inverse_kinematics (self : Leg) (vec_hip_to_foot : Cartesian) :
    Except Error Servos :=
  let magnitude_squared := vec_hip_to_foot.magnitude_squared
  let length_fully_extended_squared :=
    self.length_fully_extended * self.length_fully_extended
  if magnitude_squared > length_fully_extended_squared then
    .error (.unreachable ⟨length_fully_extended_squared, magnitude_squared⟩)
  else
    let theta_hip := self.theta_hip vec_hip_to_foot
    let theta_knee := self.theta_knee vec_hip_to_foot
    if flt theta_hip (some HIP_SERVO_MIN_RADIANS)
        ∨ fgt theta_hip (some HIP_SERVO_MAX_RADIANS) then
      .error (.servoOutOfRange (.hip theta_hip))
    else if flt theta_knee (some KNEE_SERVO_MIN_RADIANS)
        ∨ fgt theta_knee (some KNEE_SERVO_MAX_RADIANS) then
      .error (.servoOutOfRange (.knee theta_knee))
    else
      .ok ⟨fmul theta_hip (some (1.0 / (0.5 * Real.pi))),
        fmul theta_knee (some (1.0 / (0.5 * Real.pi)))⟩

/-- Modelled from the spec: the forward kinematics of §8's round-trip law
("hip/knee → foot position via the same link lengths"); no such function
exists in `src/`.  The angle conventions are those the solver itself uses:
the hip angle is the absolute direction of the hip→knee link from the +x
axis, and since the solver sets `theta_knee = theta_knee_internal - π/2 +
theta_hip`, the absolute direction of the knee→foot link is
`theta_knee - π/2`.  Both inputs are in radians. -/
noncomputable def forward_kinematics (l1 l2 theta_hip theta_knee : ℝ) : ℝ × ℝ :=
  (l1 * Real.cos theta_hip + l2 * Real.cos (theta_knee - 0.5 * Real.pi),
   l1 * Real.sin theta_hip + l2 * Real.sin (theta_knee - 0.5 * Real.pi))

end ik

namespace pwm

/- `src/src/pwm.rs`.  `FixedU32<U4>` values are embedded as their raw bit
patterns (`bits : ℕ`, value = bits / 16); the source's `checked_from_num`
guards and the panics that unchecked fixed-point operations would raise on
overflow appear as `Option` guards. -/

def PULSE_PERIOD_MS : ℕ := 20

def PULSE_FREQ_HZ : ℕ := 1000 / PULSE_PERIOD_MS

/-- `RADIANS_TO_SERVO` (`pwm.rs` lines 26-35). -/
noncomputable def RADIANS_TO_SERVO : ℝ := 2.0 / Real.pi

/-- `clock_frequency_fp`: `FixedU32::<U4>::checked_from_num(clock_hz)`,
returning the bit pattern.  A `u32` integer is representable iff its value
times 16 fits in 32 bits. -/
def clock_frequency_fp (clock_hz : ℕ) : Option ℕ :=
  if clock_hz * 16 < 2 ^ 32 then some (clock_hz * 16) else none

/-- `clock_divider_32b` (`pwm.rs` lines 77-98), as a function of the measured
clock frequency.  `denominator = (PULSE_FREQ_HZ as u32) << 17` is always
representable; the fixed-point division computes bit pattern
`(a.bits << 4) / b.bits` (truncating), and `+ from_bits(1)` adds one ULP
(1/16).  A result not representable in 32 bits is an overflow (`none`). -/
def clock_divider_32b (clock_hz : ℕ) : Option ℕ :=
  (clock_frequency_fp clock_hz).bind fun clk_bits =>
    let denominator_bits := (PULSE_FREQ_HZ <<< 17) * 16
    let q := clk_bits * 16 / denominator_bits
    if q + 1 < 2 ^ 32 then some (q + 1) else none

/-- `clock_top` (`pwm.rs` lines 101-127), as a function of the measured clock
frequency.  `denominator = (PULSE_FREQ_HZ as u32 * divider) << 1` has bit
pattern `100 * divider.bits`; `top = clkFp / denominator - ONE` subtracts
bit pattern 16; `.floor().checked_to_num::<u16>()` keeps the integer part
when it fits in 16 bits. -/
def clock_top (clock_hz : ℕ) : Option ℕ :=
  (clock_divider_32b clock_hz).bind fun divider_bits =>
    let denominator_bits := divider_bits * 100
    if denominator_bits < 2 ^ 32 then
      (clock_frequency_fp clock_hz).bind fun clk_bits =>
        let q := clk_bits * 16 / denominator_bits
        if 16 ≤ q ∧ q < 2 ^ 32 then
          let top := (q - 16) / 16
          if top < 2 ^ 16 then some top else none
        else none
    else none

end pwm

namespace servo

/- `src/src/servo.rs` -/

/-- The `embassy_rp::pwm::PwmOutput` channel, an external collaborator.
Modelled from the spec: §6 requires only "an output-channel abstraction per
servo supporting 'set pulse-width value' with a hardware-specific failure
type".  The model records the last written compare value and whether writes
fail; the `as u16` cast of the source's `set_duty_cycle(clkcmp as _)` is
idealised away (the real compare value is recorded). -/
structure PwmOutput where
  duty : Option ℝ
  failing : Bool

structure OutOfRange where
  min : ℝ
  max : ℝ
  observed : ℝ

/-- `OutOfRange::check` (`servo.rs` lines 35-44); `none` is the `Ok(())`
case, `some` carries the `Err` payload. -/
noncomputable def OutOfRange.check (min max observed : ℝ) : Option OutOfRange :=
  if min ≤ observed ∧ observed ≤ max then none else some ⟨min, max, observed⟩

inductive CouldntInitialize
  | pulseCenterOutOfRange (o : OutOfRange)
  | pulseRangeLowerOutOfRange (o : OutOfRange)
  | pulseRangeHigherOutOfRange (o : OutOfRange)

inductive CouldntMove
  | outOfRange (o : OutOfRange)
  | pwmError

structure Servo where
  pwm : PwmOutput
  pulse_min : ℝ
  pulse_max : ℝ
  clkcmp_center : ℝ
  clkcmp_range : ℝ

/-- `Servo::with_center_and_ranges` (`servo.rs` lines 46-69).  The source
reads `pwm::pulse_center()` and `pwm::pulse_range_plus_minus()` from the
process-wide calibration cache; those two values enter here as the
parameters `pwm_pulse_center` and `pwm_pulse_range_plus_minus`. -/
noncomputable def Servo.with_center_and_ranges (pwm : PwmOutput)
    (pulse_center pulse_range_lower pulse_range_higher : ℝ)
    (pwm_pulse_center pwm_pulse_range_plus_minus : ℝ) :
    Except CouldntInitialize Servo :=
  match OutOfRange.check (-1) 1 pulse_center with
  | some o => .error (.pulseCenterOutOfRange o)
  | none =>
    match OutOfRange.check (-1 - pulse_center) 0 pulse_range_lower with
    | some o => .error (.pulseRangeLowerOutOfRange o)
    | none =>
      match OutOfRange.check 0 (1 - pulse_center) pulse_range_higher with
      | some o => .error (.pulseRangeHigherOutOfRange o)
      | none =>
        .ok { pwm
              pulse_min := pulse_center + pulse_range_lower
              pulse_max := pulse_center + pulse_range_higher
              clkcmp_center :=
                pwm_pulse_center + pwm_pulse_range_plus_minus * pulse_center
              clkcmp_range := pwm_pulse_range_plus_minus }

/-- `Servo::go_to` (`servo.rs` lines 71-79).  Returns the updated servo and
`none` on success, or the unchanged servo and the error. -/
noncomputable def Servo.go_to (self : Servo) (position : ℝ) :
    Servo × Option CouldntMove :=
  match OutOfRange.check self.pulse_min self.pulse_max position with
  | some o => (self, some (.outOfRange o))
  | none =>
    let clkcmp := self.clkcmp_center + self.clkcmp_range * position
    if self.pwm.failing then (self, some .pwmError)
    else ({ self with pwm := { duty := some clkcmp, failing := self.pwm.failing } },
      none)

end servo

namespace ik2

/- The newer `ik` module interface that `src/src/leg.rs` imports
(`ik::hip_to_foot_2d` and its types).  That file is not under `src/`; only
its callers are, so per the spec these are modelled from the spec. -/

/-- Modelled from the spec: §3's `CartesianDisplacement3D`
"{x: forward, y: lateral, z: vertical} relative to a reference point"; the
type `ik::CartesianDisplacementFromEyeCenterLookingForward` that `leg.rs`
destructures into `x`, `y`, `z` is not under `src/`. -/
structure CartesianDisplacementFromEyeCenterLookingForward where
  x : ℝ
  y : ℝ
  z : ℝ

/-- Modelled from the spec: §3's `CartesianDisplacement2D`
"{x: planar distance from hip, y: vertical}"; the type
`ik::HipToFootDisplacementIn2dPlane` constructed at `leg.rs` lines 126-129
is not under `src/`. -/
structure HipToFootDisplacementIn2dPlane where
  x : ℝ
  y : ℝ

/-- Modelled from the spec: §4.1's hip/knee angle pair in radians; the type
`ik::HipAndKneeAngles` that `leg.rs` destructures is not under `src/`. -/
structure HipAndKneeAngles where
  hip : ℝ
  knee : ℝ

/-- Modelled from the spec: §4.1's `Unreachable { maxReach, distance }`;
the type `ik::HipToFootError` used by `leg.rs` is not under `src/`. -/
structure HipToFootError where
  maxReach : ℝ
  distance : ℝ

/-- Modelled from the spec: `ik::hip_to_foot_2d`, the `Planar2LinkSolver` of
§4.1 (not under `src/`; `leg.rs` line 131 calls it).  Following §4.1 steps
1-5: distance, hard reachability check against `hipToKnee + kneeToFoot`,
hip angle by the law of cosines plus the bearing, knee angle by the law of
cosines re-expressed "by subtracting a right-angle offset and adding the
hip angle"; both in radians, no joint-limit check.  The link-length
constants `LENGTH_HIP_TO_KNEE` / `LENGTH_KNEE_TO_FOOT` are also not under
`src/`, so they enter as parameters. -/
noncomputable def hip_to_foot_2d (length_hip_to_knee length_knee_to_foot : ℝ)
    (v : HipToFootDisplacementIn2dPlane) :
    Except HipToFootError HipAndKneeAngles :=
  let distance := Real.sqrt (v.x * v.x + v.y * v.y)
  if length_hip_to_knee + length_knee_to_foot < distance then
    .error ⟨length_hip_to_knee + length_knee_to_foot, distance⟩
  else
    let hip := atan2 v.y v.x
      + Real.arccos ((length_hip_to_knee * length_hip_to_knee
          - length_knee_to_foot * length_knee_to_foot + distance * distance)
        / (2 * length_hip_to_knee * distance))
    let knee := Real.arccos ((length_hip_to_knee * length_hip_to_knee
          + length_knee_to_foot * length_knee_to_foot - distance * distance)
        / (2 * length_hip_to_knee * length_knee_to_foot))
      - Real.pi / 2 + hip
    .ok ⟨hip, knee⟩

end ik2

namespace leg

/- `src/src/leg.rs` -/

/-- First `while` loop of `clamp_plus_minus_pi` (`leg.rs` lines 30-32):
`while radians >= PI { radians -= TWO_PI }`. -/
noncomputable def wrap_down (radians : ℝ) : ℝ :=
  if Real.pi ≤ radians then wrap_down (radians - 2 * Real.pi) else radians
termination_by (⌈radians / (2 * Real.pi)⌉).toNat
decreasing_by
  rename_i h
  have h2pi : (0 : ℝ) < 2 * Real.pi := by positivity
  have hx : (0 : ℝ) < radians / (2 * Real.pi) :=
    div_pos (lt_of_lt_of_le Real.pi_pos h) h2pi
  have hc : 0 < ⌈radians / (2 * Real.pi)⌉ := Int.ceil_pos.mpr hx
  have he : (radians - 2 * Real.pi) / (2 * Real.pi) = radians / (2 * Real.pi) - 1 := by
    field_simp
  rw [he, Int.ceil_sub_one]
  omega

/-- Second `while` loop of `clamp_plus_minus_pi` (`leg.rs` lines 33-35):
`while radians < NEGATIVE_PI { radians += TWO_PI }`. -/
noncomputable def wrap_up (radians : ℝ) : ℝ :=
  if radians < -Real.pi then wrap_up (radians + 2 * Real.pi) else radians
termination_by (⌈-radians / (2 * Real.pi)⌉).toNat
decreasing_by
  rename_i h
  have h2pi : (0 : ℝ) < 2 * Real.pi := by positivity
  have hx : (0 : ℝ) < -radians / (2 * Real.pi) := by
    apply div_pos _ h2pi
    have := Real.pi_pos
    linarith
  have hc : 0 < ⌈-radians / (2 * Real.pi)⌉ := Int.ceil_pos.mpr hx
  have he : -(radians + 2 * Real.pi) / (2 * Real.pi) = -radians / (2 * Real.pi) - 1 := by
    field_simp
    ring
  rw [he, Int.ceil_sub_one]
  omega

/-- `clamp_plus_minus_pi` (`leg.rs` lines 28-37): the two `while` loops in
sequence. -/
noncomputable def clamp_plus_minus_pi (radians : ℝ) : ℝ :=
  wrap_up (wrap_down radians)

inductive IkError
  | couldntMoveYaw (e : servo.CouldntMove)
  | couldntMoveHip (e : servo.CouldntMove)
  | couldntMoveKnee (e : servo.CouldntMove)
  | ik2dError (e : ik2.HipToFootError)

structure Leg where
  yaw : servo.Servo
  hip : servo.Servo
  knee : servo.Servo
  yaw_servo_x : ℝ
  yaw_servo_y : ℝ
  home_yaw_radians : ℝ

/-- The `local_yaw` computation of `Leg::ik_to` (`leg.rs` lines 97-112):
global yaw `atan2f(dx, dy)` (arguments swapped: first argument is the x
displacement), minus the home yaw, then the same two wrapping `while`
loops as `clamp_plus_minus_pi`, inlined in the source. -/
noncomputable def Leg.local_yaw (self : Leg)
    (foot : ik2.CartesianDisplacementFromEyeCenterLookingForward) : ℝ :=
  clamp_plus_minus_pi
    (atan2 (foot.x - self.yaw_servo_x) (foot.y - self.yaw_servo_y)
      - self.home_yaw_radians)

/-- The `distance_hip_to_foot_projected` binding of `Leg::ik_to`
(`leg.rs` lines 119-124). -/
noncomputable def Leg.distance_hip_to_foot_projected (self : Leg)
    (foot : ik2.CartesianDisplacementFromEyeCenterLookingForward) : ℝ :=
  Real.sqrt ((foot.x - self.yaw_servo_x) * (foot.x - self.yaw_servo_x)
    + (foot.y - self.yaw_servo_y) * (foot.y - self.yaw_servo_y))

/-- `Leg::ik_to` (`leg.rs` lines 86-141).  Returns the leg with its servos'
channel states after the move attempt, plus `none` on success or the
tagged error.  The link lengths used by the missing `ik::hip_to_foot_2d`
enter as parameters (see `ik2.hip_to_foot_2d`). -/
noncomputable def Leg.ik_to (self : Leg) (length_hip_to_knee length_knee_to_foot : ℝ)
    (foot : ik2.CartesianDisplacementFromEyeCenterLookingForward) :
    Leg × Option IkError :=
  match self.yaw.go_to (pwm.RADIANS_TO_SERVO * self.local_yaw foot) with
  | (yaw1, some e) => ({ self with yaw := yaw1 }, some (.couldntMoveYaw e))
  | (yaw1, none) =>
    let self1 := { self with yaw := yaw1 }
    match ik2.hip_to_foot_2d length_hip_to_knee length_knee_to_foot
        ⟨self.distance_hip_to_foot_projected foot, foot.z⟩ with
    | .error e => (self1, some (.ik2dError e))
    | .ok angles =>
      match self1.hip.go_to (pwm.RADIANS_TO_SERVO * angles.hip) with
      | (hip1, some e) => ({ self1 with hip := hip1 }, some (.couldntMoveHip e))
      | (hip1, none) =>
        let self2 := { self1 with hip := hip1 }
        match self2.knee.go_to (pwm.RADIANS_TO_SERVO * angles.knee) with
        | (knee1, some e) => ({ self2 with knee := knee1 }, some (.couldntMoveKnee e))
        | (knee1, none) => ({ self2 with knee := knee1 }, none)

end leg

/-- A placeholder servo used to build concrete `leg.Leg` values in tests of
the yaw path, which never reads the servo fields it fills. -/
def dummyServo : servo.Servo := ⟨⟨none, false⟩, 0, 0, 0, 0⟩

/-- A yaw servo with travel [−1, 1] and an operational channel, for
exercising `Leg::ik_to` on concrete inputs. -/
def yawTestServo : servo.Servo := ⟨⟨none, false⟩, -1, 1, 0, 1⟩

/-- A hip servo whose travel [−1, 0] excludes the command 2/3, to realise a
hip-stage failure after a successful yaw write. -/
def hipTestServo : servo.Servo := ⟨⟨none, false⟩, -1, 0, 0, 1⟩

/-- A leg whose hip servo rejects the command the test target produces,
exercising the partial-failure path of `Leg::ik_to`. -/
def witLeg : leg.Leg := ⟨yawTestServo, hipTestServo, dummyServo, 0, 0, 0⟩

/-! ## Theorems -/

theorem complex_mk_ofReal (x : ℝ) : (⟨x, 0⟩ : ℂ) = (x : ℂ) := by
  apply Complex.ext <;> simp

theorem atan2_zero_one : atan2 0 1 = 0 := by
  rw [atan2, complex_mk_ofReal]
  simp

theorem atan2_zero_neg (x : ℝ) (hx : x < 0) : atan2 0 x = Real.pi := by
  rw [atan2, complex_mk_ofReal]
  exact Complex.arg_ofReal_of_neg hx

theorem atan2_one_zero : atan2 1 0 = Real.pi / 2 := by
  have h : (⟨0, 1⟩ : ℂ) = Complex.I := by apply Complex.ext <;> simp
  rw [atan2, h, Complex.arg_I]

theorem atan2_neg_one_zero : atan2 (-1) 0 = -(Real.pi / 2) := by
  have h : (⟨0, -1⟩ : ℂ) = -Complex.I := by apply Complex.ext <;> simp
  rw [atan2, h, Complex.arg_neg_I]

theorem atan2_zero_zero : atan2 0 0 = 0 := by
  have h : (⟨0, 0⟩ : ℂ) = 0 := by apply Complex.ext <;> simp
  rw [atan2, h, Complex.arg_zero]

namespace leg

theorem wrap_down_lt (radians : ℝ) : wrap_down radians < Real.pi := by
  induction radians using wrap_down.induct with
  | case1 r h ih =>
    rw [wrap_down, if_pos h]
    exact ih
  | case2 r h =>
    rw [wrap_down, if_neg h]
    exact lt_of_not_le h

theorem wrap_up_ge (radians : ℝ) : -Real.pi ≤ wrap_up radians := by
  induction radians using wrap_up.induct with
  | case1 r h ih =>
    rw [wrap_up, if_pos h]
    exact ih
  | case2 r h =>
    rw [wrap_up, if_neg h]
    exact le_of_not_lt h

theorem wrap_up_lt_of_lt (radians : ℝ) :
    radians < Real.pi → wrap_up radians < Real.pi := by
  induction radians using wrap_up.induct with
  | case1 r h1 ih =>
    intro _
    rw [wrap_up, if_pos h1]
    exact ih (by have := Real.pi_pos; linarith)
  | case2 r h1 =>
    intro h
    rw [wrap_up, if_neg h1]
    exact h

theorem wrap_down_shift (radians : ℝ) :
    ∃ k : ℤ, wrap_down radians = radians + 2 * Real.pi * k := by
  induction radians using wrap_down.induct with
  | case1 r h ih =>
    obtain ⟨k, hk⟩ := ih
    refine ⟨k - 1, ?_⟩
    rw [wrap_down, if_pos h, hk]
    push_cast
    ring
  | case2 r h =>
    refine ⟨0, ?_⟩
    rw [wrap_down, if_neg h]
    simp

theorem wrap_up_shift (radians : ℝ) :
    ∃ k : ℤ, wrap_up radians = radians + 2 * Real.pi * k := by
  induction radians using wrap_up.induct with
  | case1 r h ih =>
    obtain ⟨k, hk⟩ := ih
    refine ⟨k + 1, ?_⟩
    rw [wrap_up, if_pos h, hk]
    push_cast
    ring
  | case2 r h =>
    refine ⟨0, ?_⟩
    rw [wrap_up, if_neg h]
    simp

theorem clamp_plus_minus_pi_mem (radians : ℝ) :
    clamp_plus_minus_pi radians ∈ Set.Ico (-Real.pi) Real.pi :=
  ⟨wrap_up_ge _, wrap_up_lt_of_lt _ (wrap_down_lt radians)⟩

theorem clamp_plus_minus_pi_shift (radians : ℝ) :
    ∃ k : ℤ, clamp_plus_minus_pi radians = radians + 2 * Real.pi * k := by
  obtain ⟨k1, hk1⟩ := wrap_down_shift radians
  obtain ⟨k2, hk2⟩ := wrap_up_shift (wrap_down radians)
  refine ⟨k1 + k2, ?_⟩
  rw [clamp_plus_minus_pi, hk2, hk1]
  push_cast
  ring

theorem wrap_down_pi : wrap_down Real.pi = -Real.pi := by
  rw [wrap_down, if_pos le_rfl, wrap_down,
    if_neg (by have := Real.pi_pos; intro hh; linarith)]
  ring

theorem clamp_plus_minus_pi_pi : clamp_plus_minus_pi Real.pi = -Real.pi := by
  rw [clamp_plus_minus_pi, wrap_down_pi, wrap_up, if_neg (lt_irrefl _)]

end leg

/-- Claim C8, counterexample: a leg with home yaw 0 and yaw pivot at
(1, 0), sent toward the foot target (1, -1, 0), computes global yaw
`atan2(0, -1) = π`; the wrapping loops then produce exactly `-π`, which is
NOT in the claimed interval (−π, π]. -/
theorem C8_counterexample :
    (⟨dummyServo, dummyServo, dummyServo, 1, 0, 0⟩ : leg.Leg).local_yaw ⟨1, -1, 0⟩
        = -Real.pi ∧
    (⟨dummyServo, dummyServo, dummyServo, 1, 0, 0⟩ : leg.Leg).local_yaw ⟨1, -1, 0⟩
        ∉ Set.Ioc (-Real.pi) Real.pi := by
  have h : (⟨dummyServo, dummyServo, dummyServo, 1, 0, 0⟩ : leg.Leg).local_yaw
      ⟨1, -1, 0⟩ = -Real.pi := by
    rw [leg.Leg.local_yaw]
    norm_num [atan2_zero_neg (-1) (by norm_num), leg.clamp_plus_minus_pi_pi]
  exact ⟨h, by rw [h]; simp [Set.mem_Ioc]⟩

/-- Claim C8 (amended): `Leg::ik_to` computes the global yaw as
`atan2(localX, localY)` (arguments deliberately swapped), which lies in
(−π, π]; it subtracts the configured home yaw and wraps by repeated ±2π
adjustment — but the wrapped local yaw command lands in [−π, π), not
(−π, π] (the first loop runs `while radians >= PI`, so +π maps to −π). -/
theorem C8_local_yaw_wrapped (l : leg.Leg)
    (foot : ik2.CartesianDisplacementFromEyeCenterLookingForward) :
    atan2 (foot.x - l.yaw_servo_x) (foot.y - l.yaw_servo_y)
        ∈ Set.Ioc (-Real.pi) Real.pi ∧
    l.local_yaw foot ∈ Set.Ico (-Real.pi) Real.pi ∧
    ∃ k : ℤ, l.local_yaw foot =
      atan2 (foot.x - l.yaw_servo_x) (foot.y - l.yaw_servo_y)
        - l.home_yaw_radians + 2 * Real.pi * k := by
  refine ⟨Complex.arg_mem_Ioc _, leg.clamp_plus_minus_pi_mem _, ?_⟩
  exact leg.clamp_plus_minus_pi_shift _

/-- Claim C5, counterexample: at a 125 MHz clock, `clock_divider_32b`
produces the bit pattern 306 (fixed-point value 19.125 = 305/16 + 1/16),
whereas the claimed formula `ceil(clockHz / (131072 × targetFreqHz))`
= ceil(125000000 / 6553600) = 20 would be the bit pattern 320. -/
theorem C5_counterexample :
    pwm.clock_divider_32b 125000000 = some 306 ∧
    (306 : ℕ) ≠ 16 * ((125000000 + (131072 * pwm.PULSE_FREQ_HZ - 1))
      / (131072 * pwm.PULSE_FREQ_HZ)) := by
  constructor
  · decide
  · decide

/-- Claim C5 (amended): for every clock frequency whose intermediate
quantities stay in range, the divider is the truncating fixed-point
division `clockHz / (131072 × targetFreqHz)` plus ONE ULP of the `U4`
format (1/16) — not the integer ceiling — i.e. bit pattern
`clockHz·16 / 6553600 + 1`; and with that divider `D` (bits), the top
count is `floor(clockHz / (targetFreqHz × 2 × (D/16))) − 1
= clockHz·16 / (100·D) − 1`, as the claim's second formula states. -/
theorem C5_calibration (clock_hz D : ℕ)
    (hD : D = clock_hz * 16 / 6553600 + 1)
    (h1 : clock_hz * 16 < 2 ^ 32)
    (h2 : D < 2 ^ 32)
    (h3 : D * 100 < 2 ^ 32)
    (h4 : 16 ≤ clock_hz * 16 * 16 / (D * 100))
    (h5 : clock_hz * 16 * 16 / (D * 100) < 2 ^ 32)
    (h6 : clock_hz * 16 / (100 * D) - 1 < 2 ^ 16) :
    pwm.clock_divider_32b clock_hz = some D ∧
    pwm.clock_top clock_hz = some (clock_hz * 16 / (100 * D) - 1) := by
  have hfreq : pwm.PULSE_FREQ_HZ = 50 := by decide
  have hdenom : (pwm.PULSE_FREQ_HZ <<< 17) * 16 = 6553600 * 16 := by decide
  have hq : clock_hz * 16 * 16 / (6553600 * 16) = clock_hz * 16 / 6553600 :=
    Nat.mul_div_mul_right _ _ (by norm_num)
  have hdiv : pwm.clock_divider_32b clock_hz = some D := by
    rw [pwm.clock_divider_32b, pwm.clock_frequency_fp, if_pos h1]
    simp only [Option.some_bind, hdenom, hq, ← hD, if_pos h2]
  refine ⟨hdiv, ?_⟩
  rw [pwm.clock_top, hdiv]
  simp only [Option.some_bind, if_pos h3]
  rw [pwm.clock_frequency_fp, if_pos h1]
  simp only [Option.some_bind, if_pos (And.intro h4 h5)]
  have hsub : (clock_hz * 16 * 16 / (D * 100) - 16) / 16
      = clock_hz * 16 * 16 / (D * 100) / 16 - 1 := by
    have := Nat.sub_mul_div (clock_hz * 16 * 16 / (D * 100)) 16 1
    simpa using this (by simpa using h4)
  have hq2 : clock_hz * 16 * 16 / (D * 100) / 16 = clock_hz * 16 / (100 * D) := by
    rw [Nat.div_div_eq_div_mul]
    have : D * 100 * 16 = 100 * D * 16 := by ring
    rw [this, show clock_hz * 16 * 16 = clock_hz * 16 * 16 from rfl,
      Nat.mul_div_mul_right _ _ (show 0 < 16 by norm_num)]
  rw [hsub, hq2, if_pos h6]

/-- Claim C5, witness: the 125 MHz clock satisfies every range guard, and
the divider/top pair is bits 306 (value 19.125) and 65358. -/
theorem C5_calibration_witness :
    pwm.clock_divider_32b 125000000 = some 306 ∧
    pwm.clock_top 125000000 = some 65358 := by
  have h := C5_calibration 125000000 306 (by decide) (by decide) (by decide)
    (by decide) (by decide) (by decide) (by decide)
  exact ⟨h.1, by rw [h.2]⟩

/-- Claim C6, counterexample: with center 0, lower extent +1/2 and upper
extent 0, all three of the claim's conditions hold (center ∈ [−1,1],
center+lowerExtent = 1/2 ∈ [−1,1], center+upperExtent = 0 ∈ [−1,1]), yet
construction fails: the code additionally requires the lower extent to be
nonpositive (checked against [−1−center, 0]). -/
theorem C6_counterexample :
    (∃ e, servo.Servo.with_center_and_ranges ⟨none, false⟩ 0 (1 / 2) 0 0 0
      = .error e) ∧
    (0 : ℝ) ∈ Set.Icc (-1 : ℝ) 1 ∧
    ((0 : ℝ) + 1 / 2) ∈ Set.Icc (-1 : ℝ) 1 ∧
    ((0 : ℝ) + 0) ∈ Set.Icc (-1 : ℝ) 1 := by
  refine ⟨⟨.pulseRangeLowerOutOfRange ⟨-1 - 0, 0, 1 / 2⟩, ?_⟩, by norm_num,
    by norm_num, by norm_num⟩
  rw [servo.Servo.with_center_and_ranges]
  simp only [servo.OutOfRange.check]
  norm_num

/-- Claim C6 (amended): `Servo::with_center_and_ranges` fails iff the
center is outside [−1, 1], or the lower extent is outside [−1−center, 0],
or the upper extent is outside [0, 1−center] (the extents are checked as
signed offsets, not merely via center+extent ∈ [−1,1]); whenever it
succeeds, the resulting [min, max] interval is a subset of [−1, 1]. -/
theorem C6_construction (pwm0 : servo.PwmOutput)
    (pulse_center pulse_range_lower pulse_range_higher pc pr : ℝ) :
    ((∃ e, servo.Servo.with_center_and_ranges pwm0 pulse_center pulse_range_lower
        pulse_range_higher pc pr = .error e) ↔
      ¬(pulse_center ∈ Set.Icc (-1 : ℝ) 1 ∧
        pulse_range_lower ∈ Set.Icc (-1 - pulse_center) 0 ∧
        pulse_range_higher ∈ Set.Icc (0 : ℝ) (1 - pulse_center))) ∧
    ∀ s, servo.Servo.with_center_and_ranges pwm0 pulse_center pulse_range_lower
        pulse_range_higher pc pr = .ok s →
      -1 ≤ s.pulse_min ∧ s.pulse_min ≤ s.pulse_max ∧ s.pulse_max ≤ 1 := by
  rw [servo.Servo.with_center_and_ranges]
  simp only [servo.OutOfRange.check, Set.mem_Icc]
  by_cases h1 : (-1 : ℝ) ≤ pulse_center ∧ pulse_center ≤ 1
  · rw [if_pos h1]
    by_cases h2 : -1 - pulse_center ≤ pulse_range_lower ∧ pulse_range_lower ≤ 0
    · rw [if_pos h2]
      by_cases h3 : (0 : ℝ) ≤ pulse_range_higher
          ∧ pulse_range_higher ≤ 1 - pulse_center
      · rw [if_pos h3]
        constructor
        · constructor
          · rintro ⟨e, he⟩
            cases he
          · intro hn
            exact absurd ⟨h1, h2, h3⟩ hn
        · rintro s hs
          cases hs
          refine ⟨by simp; linarith [h1.1, h2.1], by simp; linarith [h2.2, h3.1],
            by simp; linarith [h1.2, h3.2]⟩
      · rw [if_neg h3]
        constructor
        · exact ⟨fun _ => fun hn => h3 hn.2.2, fun _ => ⟨_, rfl⟩⟩
        · rintro s hs
          cases hs
    · rw [if_neg h2]
      constructor
      · exact ⟨fun _ => fun hn => h2 hn.2.1, fun _ => ⟨_, rfl⟩⟩
      · rintro s hs
        cases hs
  · rw [if_neg h1]
    constructor
    · exact ⟨fun _ => fun hn => h1 hn.1, fun _ => ⟨_, rfl⟩⟩
    · rintro s hs
      cases hs

/-- Claim C6, witness: center 0 with extents −1/2 and +1/2 satisfies the
construction conditions, succeeds, and yields [min, max] = [−1/2, 1/2]
inside [−1, 1]. -/
theorem C6_construction_witness :
    ∃ s, servo.Servo.with_center_and_ranges ⟨none, false⟩ 0 (-(1 / 2)) (1 / 2) 0 0
        = .ok s ∧
      -1 ≤ s.pulse_min ∧ s.pulse_min ≤ s.pulse_max ∧ s.pulse_max ≤ 1 := by
  have hok : servo.Servo.with_center_and_ranges ⟨none, false⟩ 0 (-(1 / 2)) (1 / 2) 0 0
      = .ok ⟨⟨none, false⟩, 0 + -(1 / 2), 0 + 1 / 2, 0 + 0 * 0, 0⟩ := by
    rw [servo.Servo.with_center_and_ranges]
    simp only [servo.OutOfRange.check]
    norm_num
  exact ⟨_, hok,
    (C6_construction ⟨none, false⟩ 0 (-(1 / 2)) (1 / 2) 0 0).2 _ hok⟩

/-- Claim C7 (confirmed): `Servo::go_to` reports `OutOfRange` carrying the
servo's own [min, max] bounds and the offending position exactly when the
position lies outside them, leaving the output channel untouched; in range,
it never reports `OutOfRange`, reports a hardware failure distinctly as
`PwmError` (again leaving the channel unchanged), and otherwise writes the
exact unclamped compare value `clkcmp_center + clkcmp_range × position`. -/
theorem C7_go_to_range_checked (s : servo.Servo) (position : ℝ) :
    (¬(s.pulse_min ≤ position ∧ position ≤ s.pulse_max) →
      s.go_to position = (s, some (.outOfRange ⟨s.pulse_min, s.pulse_max, position⟩))) ∧
    (s.pulse_min ≤ position → position ≤ s.pulse_max →
      (∀ o, (s.go_to position).2 ≠ some (.outOfRange o)) ∧
      (s.pwm.failing = true → s.go_to position = (s, some .pwmError)) ∧
      (s.pwm.failing = false →
        s.go_to position =
          ({ s with
              pwm := ⟨some (s.clkcmp_center + s.clkcmp_range * position), false⟩ },
            none))) := by
  constructor
  · intro h
    rw [servo.Servo.go_to, servo.OutOfRange.check, if_neg h]
  · intro hmin hmax
    have hchk : servo.OutOfRange.check s.pulse_min s.pulse_max position = none := by
      rw [servo.OutOfRange.check, if_pos ⟨hmin, hmax⟩]
    refine ⟨?_, ?_, ?_⟩
    · intro o
      rw [servo.Servo.go_to, hchk]
      cases hfail : s.pwm.failing <;> simp [hfail]
    · intro hfail
      rw [servo.Servo.go_to, hchk]
      simp [hfail]
    · intro hfail
      rw [servo.Servo.go_to, hchk]
      simp [hfail]

/-- Claim C7, witness: a servo with [min, max] = [−1, 1] asked to go to 2
reports `OutOfRange ⟨−1, 1, 2⟩` and its channel state is unchanged. -/
theorem C7_go_to_witness :
    servo.Servo.go_to ⟨⟨none, false⟩, -1, 1, 5, 2⟩ 2
      = (⟨⟨none, false⟩, -1, 1, 5, 2⟩, some (.outOfRange ⟨-1, 1, 2⟩)) :=
  (C7_go_to_range_checked ⟨⟨none, false⟩, -1, 1, 5, 2⟩ 2).1 (by norm_num)

theorem arccos_half : Real.arccos (1 / 2) = Real.pi / 3 := by
  rw [show (1 / 2 : ℝ) = Real.cos (Real.pi / 3) from Real.cos_pi_div_three.symm]
  exact Real.arccos_cos (by positivity) (by linarith [Real.pi_pos])

theorem theta_hip_eval_one_zero :
    (⟨1, 1⟩ : ik.Leg).theta_hip ⟨1, 0⟩ = some (Real.pi / 3) := by
  rw [ik.Leg.theta_hip, ik.Leg.theta_hip_internal]
  simp only [ik.Cartesian.magnitude_squared]
  norm_num [atan2_zero_one, arccos_half]

theorem theta_knee_eval_one_zero :
    (⟨1, 1⟩ : ik.Leg).theta_knee ⟨1, 0⟩ = some (Real.pi / 6) := by
  rw [ik.Leg.theta_knee, ik.Leg.theta_knee_internal, theta_hip_eval_one_zero]
  simp only [ik.Cartesian.magnitude_squared]
  norm_num [arccos_half]
  ring

theorem ik_eval_one_zero :
    (⟨1, 1⟩ : ik.Leg).inverse_kinematics ⟨1, 0⟩
      = .ok ⟨some (2 / 3), some (1 / 3)⟩ := by
  have hpi := Real.pi_pos
  rw [ik.Leg.inverse_kinematics]
  simp only [ik.Cartesian.magnitude_squared, ik.Leg.length_fully_extended,
    theta_hip_eval_one_zero, theta_knee_eval_one_zero, flt_some, fgt_some,
    ik.HIP_SERVO_MIN_RADIANS, ik.HIP_SERVO_MAX_RADIANS,
    ik.KNEE_SERVO_MIN_RADIANS, ik.KNEE_SERVO_MAX_RADIANS, fmul_some]
  rw [if_neg (by norm_num), if_neg (by push_neg; constructor <;> nlinarith),
    if_neg (by push_neg; constructor <;> nlinarith)]
  have h1 : Real.pi / 3 * (1.0 / (0.5 * Real.pi)) = 2 / 3 := by
    field_simp
    ring
  have h2 : Real.pi / 6 * (1.0 / (0.5 * Real.pi)) = 1 / 3 := by
    field_simp
    ring
  rw [h1, h2]

theorem theta_hip_eval_zero_negone :
    (⟨1, 1⟩ : ik.Leg).theta_hip ⟨0, -1⟩ = some (-(Real.pi / 6)) := by
  rw [ik.Leg.theta_hip, ik.Leg.theta_hip_internal]
  simp only [ik.Cartesian.magnitude_squared]
  norm_num [atan2_neg_one_zero, arccos_half]
  ring

theorem theta_knee_eval_zero_negone :
    (⟨1, 1⟩ : ik.Leg).theta_knee ⟨0, -1⟩ = some (-(Real.pi / 3)) := by
  rw [ik.Leg.theta_knee, ik.Leg.theta_knee_internal, theta_hip_eval_zero_negone]
  simp only [ik.Cartesian.magnitude_squared]
  norm_num [arccos_half]
  ring

theorem ik_eval_zero_negone :
    (⟨1, 1⟩ : ik.Leg).inverse_kinematics ⟨0, -1⟩
      = .ok ⟨some (-(1 / 3)), some (-(2 / 3))⟩ := by
  have hpi := Real.pi_pos
  rw [ik.Leg.inverse_kinematics]
  simp only [ik.Cartesian.magnitude_squared, ik.Leg.length_fully_extended,
    theta_hip_eval_zero_negone, theta_knee_eval_zero_negone, flt_some, fgt_some,
    ik.HIP_SERVO_MIN_RADIANS, ik.HIP_SERVO_MAX_RADIANS,
    ik.KNEE_SERVO_MIN_RADIANS, ik.KNEE_SERVO_MAX_RADIANS, fmul_some]
  rw [if_neg (by norm_num), if_neg (by push_neg; constructor <;> nlinarith),
    if_neg (by push_neg; constructor <;> nlinarith)]
  have h1 : -(Real.pi / 6) * (1.0 / (0.5 * Real.pi)) = -(1 / 3) := by
    field_simp
    ring
  have h2 : -(Real.pi / 3) * (1.0 / (0.5 * Real.pi)) = -(2 / 3) := by
    field_simp
    ring
  rw [h1, h2]

theorem theta_hip_eval_negtwo_zero :
    (⟨1, 1⟩ : ik.Leg).theta_hip ⟨-2, 0⟩ = some Real.pi := by
  have h4 : Real.sqrt 4 = 2 := by
    rw [show (4 : ℝ) = 2 ^ 2 by norm_num, Real.sqrt_sq (by norm_num)]
  rw [ik.Leg.theta_hip, ik.Leg.theta_hip_internal]
  simp only [ik.Cartesian.magnitude_squared]
  norm_num [atan2_zero_neg (-2) (by norm_num : (-2 : ℝ) < 0), h4]

theorem ik_eval_negtwo_zero :
    (⟨1, 1⟩ : ik.Leg).inverse_kinematics ⟨-2, 0⟩
      = .error (.servoOutOfRange (.hip (some Real.pi))) := by
  have hpi := Real.pi_pos
  rw [ik.Leg.inverse_kinematics]
  simp only [ik.Cartesian.magnitude_squared, ik.Leg.length_fully_extended,
    theta_hip_eval_negtwo_zero, flt_some, fgt_some,
    ik.HIP_SERVO_MIN_RADIANS, ik.HIP_SERVO_MAX_RADIANS]
  rw [if_neg (by norm_num), if_pos (Or.inr (by nlinarith))]

theorem theta_hip_eval_zero_zero :
    (⟨1, 1⟩ : ik.Leg).theta_hip ⟨0, 0⟩ = none := by
  rw [ik.Leg.theta_hip, ik.Leg.theta_hip_internal]
  simp only [ik.Cartesian.magnitude_squared]
  norm_num

theorem theta_knee_eval_zero_zero :
    (⟨1, 1⟩ : ik.Leg).theta_knee ⟨0, 0⟩ = none := by
  rw [ik.Leg.theta_knee, theta_hip_eval_zero_zero]
  simp

theorem ik_eval_zero_zero :
    (⟨1, 1⟩ : ik.Leg).inverse_kinematics ⟨0, 0⟩ = .ok ⟨none, none⟩ := by
  rw [ik.Leg.inverse_kinematics]
  simp only [ik.Cartesian.magnitude_squared, ik.Leg.length_fully_extended,
    theta_hip_eval_zero_zero, theta_knee_eval_zero_zero]
  rw [if_neg (by norm_num), if_neg (by simp), if_neg (by simp)]
  simp

theorem theta_hip_eval_one_three :
    (⟨1, 3⟩ : ik.Leg).theta_hip ⟨0, -1⟩ = none := by
  rw [ik.Leg.theta_hip, ik.Leg.theta_hip_internal]
  simp only [ik.Cartesian.magnitude_squared]
  norm_num

theorem theta_knee_eval_one_three :
    (⟨1, 3⟩ : ik.Leg).theta_knee ⟨0, -1⟩ = none := by
  rw [ik.Leg.theta_knee, ik.Leg.theta_knee_internal]
  simp only [ik.Cartesian.magnitude_squared]
  norm_num

theorem ik_eval_one_three :
    (⟨1, 3⟩ : ik.Leg).inverse_kinematics ⟨0, -1⟩ = .ok ⟨none, none⟩ := by
  rw [ik.Leg.inverse_kinematics]
  simp only [ik.Cartesian.magnitude_squared, ik.Leg.length_fully_extended,
    theta_hip_eval_one_three, theta_knee_eval_one_three]
  rw [if_neg (by norm_num), if_neg (by simp), if_neg (by simp)]
  simp

theorem ik_eval_three_zero :
    (⟨1, 1⟩ : ik.Leg).inverse_kinematics ⟨3, 0⟩
      = .error (.unreachable ⟨4, 9⟩) := by
  rw [ik.Leg.inverse_kinematics]
  simp only [ik.Cartesian.magnitude_squared, ik.Leg.length_fully_extended]
  norm_num

/-- Claim C2, counterexample: for unit links and displacement (3, 0) the
solver fails as unreachable, but the error payload is the SQUARED pair
(maxReach² = 4, distance² = 9), not the claimed maximum reach 2 and
observed distance 3. -/
theorem C2_counterexample :
    (⟨1, 1⟩ : ik.Leg).inverse_kinematics ⟨3, 0⟩ = .error (.unreachable ⟨4, 9⟩) ∧
    (⟨1, 1⟩ : ik.Leg).inverse_kinematics ⟨3, 0⟩ ≠ .error (.unreachable ⟨2, 3⟩) := by
  refine ⟨ik_eval_three_zero, ?_⟩
  rw [ik_eval_three_zero]
  intro h
  simp only [Except.error.injEq, ik.Error.unreachable.injEq,
    ik.Unreachable.mk.injEq] at h
  exact absurd h.1 (by norm_num)

/-- Claim C2 (amended): the solver fails with `Unreachable` exactly when the
distance exceeds `hipToKnee + kneeToFoot` (no clamping on that path); the
reported error carries the SQUARED maximum reach and SQUARED observed
magnitude — not the plain values — and satisfies
`maxReach² < distance²` (equivalently `maxReach < distance`). -/
theorem C2_unreachable_iff (l1 l2 x y : ℝ) (hl1 : 0 < l1) (hl2 : 0 < l2) :
    ((∃ u, (⟨l1, l2⟩ : ik.Leg).inverse_kinematics ⟨x, y⟩
        = .error (.unreachable u)) ↔
      l1 + l2 < Real.sqrt (x * x + y * y)) ∧
    ∀ u, (⟨l1, l2⟩ : ik.Leg).inverse_kinematics ⟨x, y⟩ = .error (.unreachable u) →
      u = ⟨(l1 + l2) * (l1 + l2), x * x + y * y⟩ ∧
        u.length_fully_extended_squared < u.magnitude_squared := by
  have hiff : l1 + l2 < Real.sqrt (x * x + y * y) ↔
      (l1 + l2) * (l1 + l2) < x * x + y * y := by
    rw [Real.lt_sqrt (by positivity), sq]
  rw [ik.Leg.inverse_kinematics]
  simp only [ik.Cartesian.magnitude_squared, ik.Leg.length_fully_extended]
  by_cases hgt : x * x + y * y > (l1 + l2) * (l1 + l2)
  · rw [if_pos hgt]
    refine ⟨⟨fun _ => hiff.mpr hgt, fun _ => ⟨_, rfl⟩⟩, ?_⟩
    intro u hu
    simp only [Except.error.injEq, ik.Error.unreachable.injEq] at hu
    exact ⟨hu.symm, by rw [← hu]; exact hgt⟩
  · rw [if_neg hgt]
    constructor
    · constructor
      · rintro ⟨u, hu⟩
        split_ifs at hu <;> cases hu
      · intro hlt
        exact absurd (hiff.mp hlt) hgt
    · intro u hu
      split_ifs at hu <;> cases hu

/-- Claim C2, witness: unit links and displacement (3, 0) produce the
`Unreachable` payload, whose squared fields satisfy 4 < 9. -/
theorem C2_unreachable_iff_witness :
    ∃ u, (⟨1, 1⟩ : ik.Leg).inverse_kinematics ⟨3, 0⟩ = .error (.unreachable u) ∧
      u.length_fully_extended_squared < u.magnitude_squared := by
  have h := C2_unreachable_iff 1 1 3 0 (by norm_num) (by norm_num)
  exact ⟨⟨4, 9⟩, ik_eval_three_zero, (h.2 ⟨4, 9⟩ ik_eval_three_zero).2⟩

/-- Claim C3, counterexample: the displacement (−2, 0) is reachable for
unit links (distance 2 = maximum reach), yet the solver fails with
`ServoOutOfRange` because the hip angle π exceeds the solver's own
+π/2 hip servo bound — the solver DOES perform a joint-limit check. -/
theorem C3_counterexample :
    ((-2 : ℝ) * -2 + 0 * 0 ≤ ((1 : ℝ) + 1) * ((1 : ℝ) + 1)) ∧
    (⟨1, 1⟩ : ik.Leg).inverse_kinematics ⟨-2, 0⟩
      = .error (.servoOutOfRange (.hip (some Real.pi))) :=
  ⟨by norm_num, ik_eval_negtwo_zero⟩

/-- Claim C3 (amended): hip and knee angles are computed in radians, but the
solver enforces its own fixed ±π/2 hip and knee travel limits: every
reachable displacement yields either Ok (the radian angles scaled by 2/π)
or a `ServoOutOfRange` error — never `Unreachable`. -/
theorem C3_reachable_ok_or_servo (l1 l2 x y : ℝ)
    (h : x * x + y * y ≤ (l1 + l2) * (l1 + l2)) :
    (∃ s, (⟨l1, l2⟩ : ik.Leg).inverse_kinematics ⟨x, y⟩ = .ok s) ∨
    (∃ e, (⟨l1, l2⟩ : ik.Leg).inverse_kinematics ⟨x, y⟩
      = .error (.servoOutOfRange e)) := by
  rw [ik.Leg.inverse_kinematics]
  simp only [ik.Cartesian.magnitude_squared, ik.Leg.length_fully_extended]
  rw [if_neg (not_lt.mpr h)]
  split_ifs with h1 h2
  · exact Or.inr ⟨_, rfl⟩
  · exact Or.inr ⟨_, rfl⟩
  · exact Or.inl ⟨_, rfl⟩

/-- Claim C3, witness: the reachable displacement (1, 0) for unit links
lands in the Ok-or-ServoOutOfRange dichotomy. -/
theorem C3_reachable_ok_or_servo_witness :
    (∃ s, (⟨1, 1⟩ : ik.Leg).inverse_kinematics ⟨1, 0⟩ = .ok s) ∨
    (∃ e, (⟨1, 1⟩ : ik.Leg).inverse_kinematics ⟨1, 0⟩
      = .error (.servoOutOfRange e)) :=
  C3_reachable_ok_or_servo 1 1 1 0 (by norm_num)

/-- Claim C4, counterexample: for unit links, the displacements (1, 0) and
(0, −1) have the same magnitude — hence identical internal law-of-cosines
triangle angles — but the knee servo commands differ (1/3 vs −2/3):
changing the bearing changes the knee command, because the code ADDS the
hip angle (`theta_knee_internal - π/2 + theta_hip`) instead of making the
knee command hip-independent. -/
theorem C4_counterexample :
    (⟨1, 1⟩ : ik.Leg).inverse_kinematics ⟨1, 0⟩
        = .ok ⟨some (2 / 3), some (1 / 3)⟩ ∧
    (⟨1, 1⟩ : ik.Leg).inverse_kinematics ⟨0, -1⟩
        = .ok ⟨some (-(1 / 3)), some (-(2 / 3))⟩ ∧
    (⟨(1 : ℝ), 0⟩ : ik.Cartesian).magnitude_squared
        = (⟨(0 : ℝ), -1⟩ : ik.Cartesian).magnitude_squared ∧
    (1 / 3 : ℝ) ≠ -(2 / 3) :=
  ⟨ik_eval_one_zero, ik_eval_zero_negone,
    by simp [ik.Cartesian.magnitude_squared], by norm_num⟩

/-- Claim C4 (amended): the knee angle equals the internal law-of-cosines
knee angle minus π/2 PLUS the hip angle: whenever the solver returns Ok
with real (non-NaN) values, `knee·(π/2) = θ_knee_internal − π/2 +
hip·(π/2)`, so the knee servo command shifts together with the hip/bearing
rather than being independent of it. -/
theorem C4_knee_tracks_hip (l1 l2 x y h k : ℝ)
    (hok : (⟨l1, l2⟩ : ik.Leg).inverse_kinematics ⟨x, y⟩
      = .ok ⟨some h, some k⟩) :
    ∃ ki, (⟨l1, l2⟩ : ik.Leg).theta_knee_internal ⟨x, y⟩ = some ki ∧
      k * (0.5 * Real.pi) = ki - 0.5 * Real.pi + h * (0.5 * Real.pi) := by
  have hpi := Real.pi_ne_zero
  simp only [ik.Leg.inverse_kinematics] at hok
  split_ifs at hok with h1 h2 h3
  simp only [Except.ok.injEq, ik.Servos.mk.injEq] at hok
  obtain ⟨hhip, hknee⟩ := hok
  obtain ⟨th, hth⟩ : ∃ th, (⟨l1, l2⟩ : ik.Leg).theta_hip ⟨x, y⟩ = some th := by
    cases hv : (⟨l1, l2⟩ : ik.Leg).theta_hip ⟨x, y⟩ with
    | none => rw [hv] at hhip; simp at hhip
    | some v => exact ⟨v, rfl⟩
  obtain ⟨ki, hki⟩ :
      ∃ ki, (⟨l1, l2⟩ : ik.Leg).theta_knee_internal ⟨x, y⟩ = some ki := by
    cases hv : (⟨l1, l2⟩ : ik.Leg).theta_knee_internal ⟨x, y⟩ with
    | none =>
      rw [ik.Leg.theta_knee, hv] at hknee
      simp at hknee
    | some v => exact ⟨v, rfl⟩
  rw [ik.Leg.theta_knee, hki, hth] at hknee
  rw [hth] at hhip
  simp only [fsub_some, fadd_some, fmul_some, Option.some.injEq] at hhip hknee
  refine ⟨ki, hki, ?_⟩
  rw [← hhip, ← hknee]
  field_simp
  ring

/-- Claim C4, witness: at unit links and displacement (1, 0) the returned
pair (hip 2/3, knee 1/3) satisfies the knee-tracks-hip identity with
internal knee angle π/3. -/
theorem C4_knee_tracks_hip_witness :
    ∃ ki, (⟨1, 1⟩ : ik.Leg).theta_knee_internal ⟨1, 0⟩ = some ki ∧
      (1 / 3 : ℝ) * (0.5 * Real.pi) = ki - 0.5 * Real.pi
        + (2 / 3) * (0.5 * Real.pi) :=
  C4_knee_tracks_hip 1 1 1 0 (2 / 3) (1 / 3) ik_eval_one_zero

/-- Claim C10, counterexample: the zero-magnitude displacement divides by
zero in the hip's law-of-cosines quotient; the NaN (modelled `none`)
passes both range checks — NaN comparisons are false — and the solver
returns `Ok` with NaN hip and knee values, which are neither an error nor
values inside [−1, 1]. -/
theorem C10_counterexample :
    (⟨1, 1⟩ : ik.Leg).inverse_kinematics ⟨0, 0⟩ = .ok ⟨none, none⟩ ∧
    ∀ r : ℝ, (ik.Servos.mk none none).hip ≠ some r :=
  ⟨ik_eval_zero_zero, fun _ => by simp⟩

/-- Claim C10 (amended): whenever the solver returns Ok, every returned
servo value that is a real number (not NaN) lies in [−1, 1]; degenerate
inputs such as zero magnitude instead produce Ok with NaN components,
which pass the range checks because NaN comparisons are false. -/
theorem unit_of_bounds {t : ℝ} (h1 : -0.5 * Real.pi ≤ t) (h2 : t ≤ 0.5 * Real.pi) :
    -1 ≤ t * (1.0 / (0.5 * Real.pi)) ∧ t * (1.0 / (0.5 * Real.pi)) ≤ 1 := by
  have hpi := Real.pi_pos
  have hdiv : t * (1.0 / (0.5 * Real.pi)) = t / (0.5 * Real.pi) := by ring
  constructor
  · rw [hdiv, le_div_iff₀ (by positivity)]
    linarith
  · rw [hdiv, div_le_iff₀ (by positivity)]
    linarith

theorem C10_ok_values_in_unit (l1 l2 x y : ℝ) (s : ik.Servos)
    (hok : (⟨l1, l2⟩ : ik.Leg).inverse_kinematics ⟨x, y⟩ = .ok s) :
    (∀ h, s.hip = some h → -1 ≤ h ∧ h ≤ 1) ∧
    (∀ k, s.knee = some k → -1 ≤ k ∧ k ≤ 1) := by
  simp only [ik.Leg.inverse_kinematics, ik.HIP_SERVO_MIN_RADIANS,
    ik.HIP_SERVO_MAX_RADIANS, ik.KNEE_SERVO_MIN_RADIANS,
    ik.KNEE_SERVO_MAX_RADIANS] at hok
  split_ifs at hok with h1 h2 h3
  injection hok with hs
  subst hs
  push_neg at h2 h3
  constructor
  · intro h hh
    cases hth : (⟨l1, l2⟩ : ik.Leg).theta_hip ⟨x, y⟩ with
    | none => rw [hth] at hh; simp at hh
    | some t =>
      rw [hth] at hh h2
      simp only [flt_some, fgt_some, not_lt] at h2
      simp only [fmul_some, Option.some.injEq] at hh
      rw [← hh]
      exact unit_of_bounds h2.1 h2.2
  · intro k hk
    cases htk : (⟨l1, l2⟩ : ik.Leg).theta_knee ⟨x, y⟩ with
    | none => rw [htk] at hk; simp at hk
    | some t =>
      rw [htk] at hk h3
      simp only [flt_some, fgt_some, not_lt] at h3
      simp only [fmul_some, Option.some.injEq] at hk
      rw [← hk]
      exact unit_of_bounds h3.1 h3.2

/-- Claim C10, witness: at unit links and displacement (1, 0) the solver
returns Ok with real values 2/3 and 1/3, both inside [−1, 1]. -/
theorem C10_ok_values_in_unit_witness :
    (∀ h, (ik.Servos.mk (some (2 / 3)) (some (1 / 3))).hip = some h
      → -1 ≤ h ∧ h ≤ 1) ∧
    (∀ k, (ik.Servos.mk (some (2 / 3)) (some (1 / 3))).knee = some k
      → -1 ≤ k ∧ k ≤ 1) :=
  C10_ok_values_in_unit 1 1 1 0 _ ik_eval_one_zero

theorem go_to_error_fst (s : servo.Servo) (p : ℝ) (r : servo.Servo)
    (e : servo.CouldntMove) (h : s.go_to p = (r, some e)) : r = s := by
  rw [servo.Servo.go_to] at h
  cases hc : servo.OutOfRange.check s.pulse_min s.pulse_max p with
  | some o =>
    rw [hc] at h
    exact (congrArg Prod.fst h).symm
  | none =>
    rw [hc] at h
    by_cases hf : s.pwm.failing = true
    · rw [if_pos hf] at h
      exact (congrArg Prod.fst h).symm
    · rw [if_neg hf] at h
      exact absurd (congrArg Prod.snd h) (by simp)

theorem ik_to_eq_yaw_error (l : leg.Leg) (l1 l2 : ℝ)
    (foot : ik2.CartesianDisplacementFromEyeCenterLookingForward)
    (yaw1 : servo.Servo) (e0 : servo.CouldntMove)
    (hgy : l.yaw.go_to (pwm.RADIANS_TO_SERVO * l.local_yaw foot)
      = (yaw1, some e0)) :
    l.ik_to l1 l2 foot = ({ l with yaw := yaw1 }, some (.couldntMoveYaw e0)) := by
  simp only [leg.Leg.ik_to, hgy]

theorem ik_to_eq_solver_error (l : leg.Leg) (l1 l2 : ℝ)
    (foot : ik2.CartesianDisplacementFromEyeCenterLookingForward)
    (yaw1 : servo.Servo) (e1 : ik2.HipToFootError)
    (hgy : l.yaw.go_to (pwm.RADIANS_TO_SERVO * l.local_yaw foot) = (yaw1, none))
    (hs : ik2.hip_to_foot_2d l1 l2 ⟨l.distance_hip_to_foot_projected foot, foot.z⟩
      = .error e1) :
    l.ik_to l1 l2 foot = ({ l with yaw := yaw1 }, some (.ik2dError e1)) := by
  simp only [leg.Leg.ik_to, hgy, hs]

theorem ik_to_eq_hip_error (l : leg.Leg) (l1 l2 : ℝ)
    (foot : ik2.CartesianDisplacementFromEyeCenterLookingForward)
    (yaw1 hip1 : servo.Servo) (angles : ik2.HipAndKneeAngles)
    (e2 : servo.CouldntMove)
    (hgy : l.yaw.go_to (pwm.RADIANS_TO_SERVO * l.local_yaw foot) = (yaw1, none))
    (hs : ik2.hip_to_foot_2d l1 l2 ⟨l.distance_hip_to_foot_projected foot, foot.z⟩
      = .ok angles)
    (hgh : l.hip.go_to (pwm.RADIANS_TO_SERVO * angles.hip) = (hip1, some e2)) :
    l.ik_to l1 l2 foot
      = ({ l with yaw := yaw1, hip := hip1 }, some (.couldntMoveHip e2)) := by
  simp only [leg.Leg.ik_to, hgy, hs, hgh]

theorem ik_to_eq_knee_error (l : leg.Leg) (l1 l2 : ℝ)
    (foot : ik2.CartesianDisplacementFromEyeCenterLookingForward)
    (yaw1 hip1 knee1 : servo.Servo) (angles : ik2.HipAndKneeAngles)
    (e3 : servo.CouldntMove)
    (hgy : l.yaw.go_to (pwm.RADIANS_TO_SERVO * l.local_yaw foot) = (yaw1, none))
    (hs : ik2.hip_to_foot_2d l1 l2 ⟨l.distance_hip_to_foot_projected foot, foot.z⟩
      = .ok angles)
    (hgh : l.hip.go_to (pwm.RADIANS_TO_SERVO * angles.hip) = (hip1, none))
    (hgk : l.knee.go_to (pwm.RADIANS_TO_SERVO * angles.knee) = (knee1, some e3)) :
    l.ik_to l1 l2 foot
      = ({ l with yaw := yaw1, hip := hip1, knee := knee1 },
        some (.couldntMoveKnee e3)) := by
  simp only [leg.Leg.ik_to, hgy, hs, hgh, hgk]

theorem ik_to_eq_ok (l : leg.Leg) (l1 l2 : ℝ)
    (foot : ik2.CartesianDisplacementFromEyeCenterLookingForward)
    (yaw1 hip1 knee1 : servo.Servo) (angles : ik2.HipAndKneeAngles)
    (hgy : l.yaw.go_to (pwm.RADIANS_TO_SERVO * l.local_yaw foot) = (yaw1, none))
    (hs : ik2.hip_to_foot_2d l1 l2 ⟨l.distance_hip_to_foot_projected foot, foot.z⟩
      = .ok angles)
    (hgh : l.hip.go_to (pwm.RADIANS_TO_SERVO * angles.hip) = (hip1, none))
    (hgk : l.knee.go_to (pwm.RADIANS_TO_SERVO * angles.knee) = (knee1, none)) :
    l.ik_to l1 l2 foot
      = ({ l with yaw := yaw1, hip := hip1, knee := knee1 }, none) := by
  simp only [leg.Leg.ik_to, hgy, hs, hgh, hgk]

/-- Claim C9 (confirmed): `Leg::ik_to` commands yaw, then hip, then knee,
each scaled by `RADIANS_TO_SERVO = 2/π`; any servo failure short-circuits
with the failing joint's tag, and joints already commanded keep their new
channel state (no rollback): a yaw failure leaves everything unchanged; a
solver or hip failure retains the yaw write and leaves hip and knee
unchanged; a knee failure retains the yaw and hip writes; on success all
three writes land. -/
theorem C9_ik_to_best_effort (l : leg.Leg) (l1 l2 : ℝ)
    (foot : ik2.CartesianDisplacementFromEyeCenterLookingForward) :
    (∀ e, (l.ik_to l1 l2 foot).2 = some (.couldntMoveYaw e) →
      (l.ik_to l1 l2 foot).1 = l ∧
      (l.yaw.go_to (pwm.RADIANS_TO_SERVO * l.local_yaw foot)).2 = some e) ∧
    (∀ e, (l.ik_to l1 l2 foot).2 = some (.ik2dError e) →
      (l.ik_to l1 l2 foot).1.yaw
          = (l.yaw.go_to (pwm.RADIANS_TO_SERVO * l.local_yaw foot)).1 ∧
      (l.ik_to l1 l2 foot).1.hip = l.hip ∧
      (l.ik_to l1 l2 foot).1.knee = l.knee) ∧
    (∀ e, (l.ik_to l1 l2 foot).2 = some (.couldntMoveHip e) →
      (l.ik_to l1 l2 foot).1.yaw
          = (l.yaw.go_to (pwm.RADIANS_TO_SERVO * l.local_yaw foot)).1 ∧
      (l.ik_to l1 l2 foot).1.hip = l.hip ∧
      (l.ik_to l1 l2 foot).1.knee = l.knee) ∧
    (∀ e, (l.ik_to l1 l2 foot).2 = some (.couldntMoveKnee e) →
      ∃ angles, ik2.hip_to_foot_2d l1 l2
          ⟨l.distance_hip_to_foot_projected foot, foot.z⟩ = .ok angles ∧
        (l.ik_to l1 l2 foot).1.yaw
            = (l.yaw.go_to (pwm.RADIANS_TO_SERVO * l.local_yaw foot)).1 ∧
        (l.ik_to l1 l2 foot).1.hip
            = (l.hip.go_to (pwm.RADIANS_TO_SERVO * angles.hip)).1 ∧
        (l.ik_to l1 l2 foot).1.knee = l.knee) ∧
    ((l.ik_to l1 l2 foot).2 = none →
      ∃ angles, ik2.hip_to_foot_2d l1 l2
          ⟨l.distance_hip_to_foot_projected foot, foot.z⟩ = .ok angles ∧
        (l.ik_to l1 l2 foot).1.yaw
            = (l.yaw.go_to (pwm.RADIANS_TO_SERVO * l.local_yaw foot)).1 ∧
        (l.ik_to l1 l2 foot).1.hip
            = (l.hip.go_to (pwm.RADIANS_TO_SERVO * angles.hip)).1 ∧
        (l.ik_to l1 l2 foot).1.knee
            = (l.knee.go_to (pwm.RADIANS_TO_SERVO * angles.knee)).1) := by
  rcases hgy : l.yaw.go_to (pwm.RADIANS_TO_SERVO * l.local_yaw foot) with ⟨yaw1, ye⟩
  cases ye with
  | some e0 =>
    have hyeq : yaw1 = l.yaw := go_to_error_fst _ _ _ _ hgy
    rw [ik_to_eq_yaw_error l l1 l2 foot yaw1 e0 hgy]
    refine ⟨?_, ?_, ?_, ?_, ?_⟩
    · intro e he
      simp only [Option.some.injEq, leg.IkError.couldntMoveYaw.injEq] at he
      subst he
      subst hyeq
      exact ⟨rfl, rfl⟩
    · intro e he
      simp at he
    · intro e he
      simp at he
    · intro e he
      simp at he
    · intro he
      simp at he
  | none =>
    cases hs : ik2.hip_to_foot_2d l1 l2
        ⟨l.distance_hip_to_foot_projected foot, foot.z⟩ with
    | error e1 =>
      rw [ik_to_eq_solver_error l l1 l2 foot yaw1 e1 hgy hs]
      refine ⟨?_, ?_, ?_, ?_, ?_⟩
      · intro e he
        simp at he
      · intro e he
        exact ⟨rfl, rfl, rfl⟩
      · intro e he
        simp at he
      · intro e he
        simp at he
      · intro he
        simp at he
    | ok angles =>
      rcases hgh : l.hip.go_to (pwm.RADIANS_TO_SERVO * angles.hip) with ⟨hip1, he2⟩
      cases he2 with
      | some e2 =>
        have hheq : hip1 = l.hip := go_to_error_fst _ _ _ _ hgh
        rw [ik_to_eq_hip_error l l1 l2 foot yaw1 hip1 angles e2 hgy hs hgh]
        refine ⟨?_, ?_, ?_, ?_, ?_⟩
        · intro e he
          simp at he
        · intro e he
          simp at he
        · intro e he
          exact ⟨rfl, hheq, rfl⟩
        · intro e he
          simp at he
        · intro he
          simp at he
      | none =>
        rcases hgk : l.knee.go_to (pwm.RADIANS_TO_SERVO * angles.knee)
          with ⟨knee1, ke⟩
        cases ke with
        | some e3 =>
          have hkeq : knee1 = l.knee := go_to_error_fst _ _ _ _ hgk
          rw [ik_to_eq_knee_error l l1 l2 foot yaw1 hip1 knee1 angles e3 hgy hs
            hgh hgk]
          refine ⟨?_, ?_, ?_, ?_, ?_⟩
          · intro e he
            simp at he
          · intro e he
            simp at he
          · intro e he
            simp at he
          · intro e he
            exact ⟨angles, rfl, rfl, by rw [hgh], hkeq⟩
          · intro he
            simp at he
        | none =>
          rw [ik_to_eq_ok l l1 l2 foot yaw1 hip1 knee1 angles hgy hs hgh hgk]
          refine ⟨?_, ?_, ?_, ?_, ?_⟩
          · intro e he
            simp at he
          · intro e he
            simp at he
          · intro e he
            simp at he
          · intro e he
            simp at he
          · intro _
            exact ⟨angles, rfl, rfl, by rw [hgh], by rw [hgk]⟩

theorem clamp_plus_minus_pi_eq_self {x : ℝ} (h1 : -Real.pi ≤ x)
    (h2 : x < Real.pi) : leg.clamp_plus_minus_pi x = x := by
  rw [leg.clamp_plus_minus_pi, leg.wrap_down, if_neg (not_le.mpr h2),
    leg.wrap_up, if_neg (not_lt.mpr h1)]

theorem witLeg_local_yaw : witLeg.local_yaw ⟨1, 0, 0⟩ = Real.pi / 2 := by
  have hpi := Real.pi_pos
  rw [leg.Leg.local_yaw]
  simp only [witLeg]
  norm_num [atan2_one_zero]
  exact clamp_plus_minus_pi_eq_self (by linarith) (by linarith)

theorem radians_to_servo_half_pi : pwm.RADIANS_TO_SERVO * (Real.pi / 2) = 1 := by
  have hpi := Real.pi_ne_zero
  rw [pwm.RADIANS_TO_SERVO]
  field_simp
  norm_num

theorem witLeg_yaw_go_to :
    witLeg.yaw.go_to (pwm.RADIANS_TO_SERVO * witLeg.local_yaw ⟨1, 0, 0⟩)
      = (⟨⟨some 1, false⟩, -1, 1, 0, 1⟩, none) := by
  rw [witLeg_local_yaw, radians_to_servo_half_pi]
  show yawTestServo.go_to 1 = _
  simp only [yawTestServo, servo.Servo.go_to, servo.OutOfRange.check]
  norm_num

theorem witLeg_dist : witLeg.distance_hip_to_foot_projected ⟨1, 0, 0⟩ = 1 := by
  rw [leg.Leg.distance_hip_to_foot_projected]
  simp only [witLeg]
  norm_num

theorem hip2d_eval :
    ik2.hip_to_foot_2d 1 1 ⟨1, 0⟩ = .ok ⟨Real.pi / 3, Real.pi / 6⟩ := by
  rw [ik2.hip_to_foot_2d]
  norm_num [atan2_zero_one, arccos_half]
  ring

theorem witLeg_hip_go_to :
    witLeg.hip.go_to (pwm.RADIANS_TO_SERVO * (Real.pi / 3))
      = (hipTestServo, some (.outOfRange ⟨-1, 0, 2 / 3⟩)) := by
  have hv : pwm.RADIANS_TO_SERVO * (Real.pi / 3) = 2 / 3 := by
    have hpi := Real.pi_ne_zero
    rw [pwm.RADIANS_TO_SERVO]
    field_simp
    ring
  rw [hv]
  show hipTestServo.go_to _ = _
  simp only [hipTestServo, servo.Servo.go_to, servo.OutOfRange.check]
  norm_num

/-- Claim C9, witness: a leg whose hip servo travel [−1, 0] rejects the hip
command 2/3 at foot target (1, 0, 0): the move fails tagged
`CouldntMoveHip`, the earlier yaw write is retained (best effort, no
rollback), and the hip and knee servos are unchanged. -/
theorem C9_ik_to_best_effort_witness :
    ∃ e, (witLeg.ik_to 1 1 ⟨1, 0, 0⟩).2 = some (.couldntMoveHip e) ∧
      ((witLeg.ik_to 1 1 ⟨1, 0, 0⟩).1.yaw
          = (witLeg.yaw.go_to
              (pwm.RADIANS_TO_SERVO * witLeg.local_yaw ⟨1, 0, 0⟩)).1 ∧
        (witLeg.ik_to 1 1 ⟨1, 0, 0⟩).1.hip = witLeg.hip ∧
        (witLeg.ik_to 1 1 ⟨1, 0, 0⟩).1.knee = witLeg.knee) := by
  have hshape := ik_to_eq_hip_error witLeg 1 1 ⟨1, 0, 0⟩
    ⟨⟨some 1, false⟩, -1, 1, 0, 1⟩ hipTestServo ⟨Real.pi / 3, Real.pi / 6⟩
    (.outOfRange ⟨-1, 0, 2 / 3⟩) witLeg_yaw_go_to
    (by rw [witLeg_dist]; exact hip2d_eval) witLeg_hip_go_to
  exact ⟨.outOfRange ⟨-1, 0, 2 / 3⟩, by rw [hshape],
    (C9_ik_to_best_effort witLeg 1 1 ⟨1, 0, 0⟩).2.2.1
      (.outOfRange ⟨-1, 0, 2 / 3⟩) (by rw [hshape])⟩

/-- Triangle closure of the solver's two-link geometry: if `A` and `B` are
the law-of-cosines cosines of the hip-internal and knee-internal angles and
they satisfy the side relations `l1 − l2·B = r·A` (projection) and
`r·sin = l2·sin` (law of sines), then the solver's angle assignments drive
the forward kinematics back to the target `(x, y) = r·(cos σ, sin σ)`. -/
theorem two_link_fk (l1 l2 r x y A B σ : ℝ)
    (hA1 : -1 ≤ A) (hA2 : A ≤ 1) (hB1 : -1 ≤ B) (hB2 : B ≤ 1)
    (hK1 : l1 - l2 * B = r * A)
    (hK2 : r * Real.sqrt (1 - A ^ 2) = l2 * Real.sqrt (1 - B ^ 2))
    (hcs : Real.cos σ * r = x) (hss : Real.sin σ * r = y) :
    ik.forward_kinematics l1 l2 (σ + Real.arccos A)
      ((Real.arccos B - 0.5 * Real.pi) + (σ + Real.arccos A)) = (x, y) := by
  have hsa2 : Real.sin (Real.arccos A) ^ 2 = 1 - A ^ 2 := by
    rw [Real.sin_arccos, Real.sq_sqrt (by nlinarith)]
  have hsb2 : Real.sin (Real.arccos B) ^ 2 = 1 - B ^ 2 := by
    rw [Real.sin_arccos, Real.sq_sqrt (by nlinarith)]
  have hca : Real.cos (Real.arccos A) = A := Real.cos_arccos hA1 hA2
  have hcb : Real.cos (Real.arccos B) = B := Real.cos_arccos hB1 hB2
  have hsin : r * Real.sin (Real.arccos A) = l2 * Real.sin (Real.arccos B) := by
    rw [Real.sin_arccos, Real.sin_arccos]
    exact hK2
  set a := Real.arccos A with ha
  set b := Real.arccos B with hb
  have E1 : l1 * Real.cos a - l2 * (Real.cos a * Real.cos b
      - Real.sin a * Real.sin b) = r := by
    have hsplit : l1 * Real.cos a - l2 * (Real.cos a * Real.cos b
        - Real.sin a * Real.sin b)
        = Real.cos a * (l1 - l2 * Real.cos b) + Real.sin a * (l2 * Real.sin b) := by
      ring
    rw [hsplit, hcb, hK1, ← hsin, hca]
    have hre : A * (r * A) + Real.sin a * (r * Real.sin a)
        = r * (A ^ 2 + Real.sin a ^ 2) := by ring
    rw [hre, hsa2]
    ring
  have E2 : l1 * Real.sin a - l2 * (Real.sin a * Real.cos b
      + Real.cos a * Real.sin b) = 0 := by
    have hsplit : l1 * Real.sin a - l2 * (Real.sin a * Real.cos b
        + Real.cos a * Real.sin b)
        = Real.sin a * (l1 - l2 * Real.cos b) - Real.cos a * (l2 * Real.sin b) := by
      ring
    rw [hsplit, hcb, hK1, ← hsin, hca]
    ring
  rw [ik.forward_kinematics, Prod.mk.injEq]
  rw [show (b - 0.5 * Real.pi) + (σ + a) - 0.5 * Real.pi
    = σ + a + b - Real.pi from by ring]
  constructor
  · rw [Real.cos_sub, Real.cos_pi, Real.sin_pi]
    simp only [Real.cos_add, Real.sin_add]
    linear_combination Real.cos σ * E1 - Real.sin σ * E2 + hcs
  · rw [Real.sin_sub, Real.cos_pi, Real.sin_pi]
    simp only [Real.cos_add, Real.sin_add]
    linear_combination Real.sin σ * E1 + Real.cos σ * E2 + hss

/-- Claim C1, counterexample: links 1 and 3 with displacement (0, −1):
the distance 1 is at most `hipToKnee + kneeToFoot = 4`, but the target
lies inside the annulus hole (distance < |l1 − l2| = 2), the
law-of-cosines quotients leave acos's domain, the resulting NaN angles
pass both range checks, and the solver returns Ok with NaN (`none`) for
both values — there are no real hip/knee angles to feed through forward
kinematics, so no round trip occurs. -/
theorem C1_counterexample :
    Real.sqrt (0 * 0 + (-1) * (-1)) ≤ (1 : ℝ) + 3 ∧
    (⟨1, 3⟩ : ik.Leg).inverse_kinematics ⟨0, -1⟩ = .ok ⟨none, none⟩ ∧
    ∀ h k : ℝ, (⟨1, 3⟩ : ik.Leg).inverse_kinematics ⟨0, -1⟩
      ≠ .ok ⟨some h, some k⟩ := by
  refine ⟨?_, ik_eval_one_three, ?_⟩
  · rw [show (0 * 0 + (-1) * (-1) : ℝ) = 1 by norm_num, Real.sqrt_one]
    norm_num
  · intro h k hc
    rw [ik_eval_one_three] at hc
    simp at hc

/-- Claim C1 (amended): for strictly positive link lengths and a
displacement whose distance is strictly positive, at least `|l1 − l2|`
(outside the annulus hole) and at most `l1 + l2`, whenever
`inverse_kinematics` returns Ok it returns real hip and knee values, and
feeding them (unscaled by π/2) through forward kinematics reproduces the
input displacement exactly in the real-number model (the claim's
"within floating-point tolerance" sharpens to exact equality here).  Ok is
not guaranteed: the solver may also reject a reachable pose via its
servo-range checks, and inner-annulus or zero-magnitude inputs yield NaN
angles (see the counterexample). -/
theorem C1_round_trip (l1 l2 x y : ℝ) (s : ik.Servos)
    (hl1 : 0 < l1) (hl2 : 0 < l2)
    (hr0 : 0 < Real.sqrt (x * x + y * y))
    (hlo : |l1 - l2| ≤ Real.sqrt (x * x + y * y))
    (hhi : Real.sqrt (x * x + y * y) ≤ l1 + l2)
    (hok : (⟨l1, l2⟩ : ik.Leg).inverse_kinematics ⟨x, y⟩ = .ok s) :
    ∃ h k, s.hip = some h ∧ s.knee = some k ∧
      ik.forward_kinematics l1 l2 (h * (0.5 * Real.pi)) (k * (0.5 * Real.pi))
        = (x, y) := by
  have hpi := Real.pi_pos
  set r := Real.sqrt (x * x + y * y) with hrdef
  have hrr : r * r = x * x + y * y :=
    Real.mul_self_sqrt (add_nonneg (mul_self_nonneg x) (mul_self_nonneg y))
  have habs1 : l1 - l2 ≤ r := le_trans (le_abs_self _) hlo
  have habs2 : l2 - l1 ≤ r := by
    have := neg_le_abs (l1 - l2)
    linarith
  have hA1 : -1 ≤ (l1 * l1 + r * r - l2 * l2) * 0.5 / (l1 * r) := by
    rw [le_div_iff₀ (mul_pos hl1 hr0)]
    nlinarith [mul_nonneg (by linarith : (0 : ℝ) ≤ l1 + r - l2)
      (by linarith : (0 : ℝ) ≤ l1 + r + l2)]
  have hA2 : (l1 * l1 + r * r - l2 * l2) * 0.5 / (l1 * r) ≤ 1 := by
    rw [div_le_one (mul_pos hl1 hr0)]
    nlinarith [mul_nonneg (by linarith : (0 : ℝ) ≤ l2 - (l1 - r))
      (by linarith : (0 : ℝ) ≤ l2 + (l1 - r))]
  have hB1 : -1 ≤ (l1 * l1 + l2 * l2 - r * r) * 0.5 / (l1 * l2) := by
    rw [le_div_iff₀ (mul_pos hl1 hl2)]
    nlinarith [mul_nonneg (by linarith : (0 : ℝ) ≤ l1 + l2 - r)
      (by linarith : (0 : ℝ) ≤ l1 + l2 + r)]
  have hB2 : (l1 * l1 + l2 * l2 - r * r) * 0.5 / (l1 * l2) ≤ 1 := by
    rw [div_le_one (mul_pos hl1 hl2)]
    nlinarith [mul_nonneg (by linarith : (0 : ℝ) ≤ r - (l1 - l2))
      (by linarith : (0 : ℝ) ≤ r + (l1 - l2))]
  have hthi : (⟨l1, l2⟩ : ik.Leg).theta_hip_internal ⟨x, y⟩
      = some (Real.arccos ((l1 * l1 + r * r - l2 * l2) * 0.5 / (l1 * r))) := by
    rw [ik.Leg.theta_hip_internal]
    simp only [ik.Cartesian.magnitude_squared]
    rw [← hrr]
    rw [fsqrt_some, if_neg (not_lt.mpr (mul_self_nonneg r)),
      Real.sqrt_mul_self hr0.le, fmul_some,
      fdiv_some, if_neg (ne_of_gt (mul_pos hl1 hr0)),
      facos_some, if_neg (by push_neg; exact ⟨hA1, hA2⟩)]
  have hth : (⟨l1, l2⟩ : ik.Leg).theta_hip ⟨x, y⟩
      = some (atan2 y x
        + Real.arccos ((l1 * l1 + r * r - l2 * l2) * 0.5 / (l1 * r))) := by
    rw [ik.Leg.theta_hip, hthi, fadd_some]
  have htki : (⟨l1, l2⟩ : ik.Leg).theta_knee_internal ⟨x, y⟩
      = some (Real.arccos ((l1 * l1 + l2 * l2 - r * r) * 0.5 / (l1 * l2))) := by
    rw [ik.Leg.theta_knee_internal]
    simp only [ik.Cartesian.magnitude_squared]
    rw [← hrr]
    rw [fdiv_some, if_neg (ne_of_gt (mul_pos hl1 hl2)),
      facos_some, if_neg (by push_neg; exact ⟨hB1, hB2⟩)]
  have htk : (⟨l1, l2⟩ : ik.Leg).theta_knee ⟨x, y⟩
      = some ((Real.arccos ((l1 * l1 + l2 * l2 - r * r) * 0.5 / (l1 * l2))
          - 0.5 * Real.pi)
        + (atan2 y x
          + Real.arccos ((l1 * l1 + r * r - l2 * l2) * 0.5 / (l1 * r)))) := by
    rw [ik.Leg.theta_knee, htki, hth, fsub_some, fadd_some]
  simp only [ik.Leg.inverse_kinematics] at hok
  rw [hth, htk] at hok
  split_ifs at hok with h1 h2 h3
  injection hok with hs
  subst hs
  refine ⟨_, _, rfl, rfl, ?_⟩
  have hscale : ∀ t : ℝ, t * (1.0 / (0.5 * Real.pi)) * (0.5 * Real.pi) = t := by
    intro t
    have hpi0 := Real.pi_ne_zero
    field_simp
    norm_num
  rw [hscale, hscale]
  have hz : (⟨x, y⟩ : ℂ) ≠ 0 := by
    intro h0
    have hx0 : x = 0 := by
      have := congrArg Complex.re h0
      simpa using this
    have hy0 : y = 0 := by
      have := congrArg Complex.im h0
      simpa using this
    have hzero : r * r = 0 := by
      rw [hrr, hx0, hy0]
      ring
    nlinarith [hr0]
  have habsz : Complex.abs ⟨x, y⟩ = r := by
    rw [Complex.abs_apply, Complex.normSq_mk]
  have hcs : Real.cos (atan2 y x) * r = x := by
    rw [atan2, Complex.cos_arg hz, habsz]
    exact div_mul_cancel₀ x (ne_of_gt hr0)
  have hss : Real.sin (atan2 y x) * r = y := by
    rw [atan2, Complex.sin_arg, habsz]
    exact div_mul_cancel₀ y (ne_of_gt hr0)
  have hK1 : l1 - l2 * ((l1 * l1 + l2 * l2 - r * r) * 0.5 / (l1 * l2))
      = r * ((l1 * l1 + r * r - l2 * l2) * 0.5 / (l1 * r)) := by
    field_simp
    ring
  have hK2 : r * Real.sqrt (1 - ((l1 * l1 + r * r - l2 * l2) * 0.5 / (l1 * r)) ^ 2)
      = l2 * Real.sqrt (1 - ((l1 * l1 + l2 * l2 - r * r) * 0.5 / (l1 * l2)) ^ 2) := by
    have hfold : ∀ c t : ℝ, 0 ≤ c → c * Real.sqrt t = Real.sqrt (c ^ 2 * t) := by
      intro c t hc
      rw [Real.sqrt_mul (sq_nonneg c), Real.sqrt_sq hc]
    rw [hfold r _ hr0.le, hfold l2 _ hl2.le]
    congr 1
    field_simp
    ring
  exact two_link_fk l1 l2 r x y _ _ (atan2 y x) hA1 hA2 hB1 hB2 hK1 hK2 hcs hss

/-- Claim C1, witness: unit links and displacement (1, 0) satisfy the
annulus conditions, the solver returns Ok with hip 2/3 and knee 1/3, and
forward kinematics at π/3 and π/6 radians lands back on (1, 0). -/
theorem C1_round_trip_witness :
    ∃ h k, (ik.Servos.mk (some (2 / 3)) (some (1 / 3))).hip = some h ∧
      (ik.Servos.mk (some (2 / 3)) (some (1 / 3))).knee = some k ∧
      ik.forward_kinematics 1 1 (h * (0.5 * Real.pi)) (k * (0.5 * Real.pi))
        = (1, 0) := by
  have hs1 : Real.sqrt (1 * 1 + 0 * 0) = 1 := by
    rw [show (1 * 1 + 0 * 0 : ℝ) = 1 by norm_num, Real.sqrt_one]
  exact C1_round_trip 1 1 1 0 ⟨some (2 / 3), some (1 / 3)⟩ (by norm_num)
    (by norm_num) (by rw [hs1]; norm_num) (by rw [hs1]; norm_num)
    (by rw [hs1]; norm_num) ik_eval_one_zero

end EyeIk
